import Mathlib

/-!
Shallow embedding of the `promise` Go package (promisify.go).

Go `interface{}` values that flow through promises are modelled by the
inductive type `GoVal`: nil interfaces, integers, strings, error values
(an error with message `m`, whose `Error()` method yields the string `m`),
and slices of values.

The `Promise` struct is modelled field-for-field; since promises are
heap-allocated and mutated through pointers, operations act on a `Heap`
(a list of promises indexed by position, a promise id).  Callbacks stored
in the `success`/`failure` queues are, in every code path of the package,
closures produced by `Promise.wrap` capturing a user callback and a
pointer to the child promise; a queue entry is therefore represented as a
pair of a (deeply embedded) user callback and the child's promise id.

Goroutines spawned by `flush` (`go sendSoon(...)`) are modelled as `Task`
values processed by a FIFO scheduler `run`; a panic that escapes a
callback (and hence the goroutine) is modelled by the `Option GoVal`
panic component threaded through every operation.
-/

/-- Model of Go `interface{}` values stored in promises. -/
inductive GoVal where
  | nil
  | int (n : Int)
  | str (s : String)
  | err (msg : String)
  | list (vs : List GoVal)
deriving Repr

/-- `v.IsNil()` on the reflect value of an interface slot: true exactly for
the nil interface. -/
def GoVal.isNil : GoVal → Bool
  | .nil => true
  | _ => false

/-- `err.Error()` for a Go error value: its message string.  The error slot
of a result list is, by Go typing, always `.nil` or `.err m`; other shapes
are unreachable and mapped to the empty message. -/
def GoVal.errorString : GoVal → GoVal
  | .err m => .str m
  | _ => .str ""

/-- state of the promise: pending, fulfilled, rejected. -/
inductive state where
  | pending
  | fulfilled
  | rejected
deriving Repr, DecidableEq

/-- `state.String()` from the source; the `default: panic` arm is
unreachable here because the match is total over the three constructors. -/
def state.String : state → String
  | .pending => "pending"
  | .fulfilled => "fulfilled"
  | .rejected => "rejected"

/-- Go declared result types, as far as `hasLastError` distinguishes them:
the `error` interface type versus everything else. -/
inductive GoType where
  | error
  | int
  | string
  | other (n : Nat)
deriving Repr, DecidableEq

/--
`hasLastError(t)` from the source:

    N := t.NumOut()
    if N == 0 { return false }
    return t.Out(N-1) == errorType

A function type is represented by its list of declared output types. -/
def hasLastError (outs : List GoType) : Bool :=
  match outs.getLast? with
  | none => false
  | some t => t == GoType.error

/-- `desliceOne(vals)` from the source: zero values fold to nil, one value
is passed through unwrapped, two or more become the slice itself. -/
def desliceOne (vals : List GoVal) : GoVal :=
  match vals with
  | [] => .nil
  | [v] => v
  | vs => .list vs

/--
`splitResults(results, lastError)` from the source:

    N := len(results)
    var err error
    if lastError && N > 0 {
      var errval reflect.Value
      results, errval = results[:N-1], results[N-1]
      if errval.IsValid() && !errval.IsNil() {
        err = errval.Interface().(error)
      }
    }
    return desliceOne(unReflectAll(results)), err

A `reflect.Value` obtained from `Call` is always valid, so the guard
reduces to the nil check; a `none` second component models a nil error. -/
def splitResults (results : List GoVal) (lastError : Bool) : GoVal × Option GoVal :=
  match lastError, results.getLast? with
  | true, some errval =>
      (desliceOne results.dropLast, if errval.isNil then none else some errval)
  | _, _ => (desliceOne results, none)

/-- User-supplied callbacks (`Callback func(value interface{}) interface{}`
in the source), deeply embedded.  `noCb` is a nil `Callback`; `undefined`
is the package's identity function of the same name; `addOne l` asserts
its argument to `int` and returns it plus one (the `incrementor.process`
shape of the tests, labelled `l` so invocations can be traced); `constV v`
returns `v` ignoring its argument; `panics x` panics with `x`. -/
inductive UserCb where
  | noCb
  | undefined
  | addOne (l : Nat)
  | constV (v : GoVal)
  | panics (x : GoVal)
deriving Repr

/-- `safe(c)` from the source: a nil callback is replaced by `undefined`,
the identity. -/
def safe : UserCb → UserCb
  | .noCb => .undefined
  | c => c

/-- Trace of user-callback invocations: the label of the callback and the
value it observed, in invocation order. -/
abbrev Trace := List (Nat × GoVal)

/-- Run a user callback on a value.  Returns the trace entries it emits and
either `.ok` with its return value or `.error` with a panic value. -/
def runUser : UserCb → GoVal → Trace × Except GoVal GoVal
  | .noCb, v => ([], .ok v)
  | .undefined, v => ([], .ok v)
  | .addOne l, v =>
      match v with
      | .int n => ([(l, .int n)], .ok (.int (n + 1)))
      | w => ([(l, w)], .error (.str "interface conversion: not an int"))
  | .constV c, _ => ([], .ok c)
  | .panics x, _ => ([], .error x)

/-- A queue entry: one of the two closures produced by `Promise.wrap`,
capturing the user callback it guards and the child promise it settles. -/
structure QEntry where
  user : UserCb
  child : Nat
deriving Repr

/-- The `Promise` struct of the source, field for field.  The callback
queues hold `QEntry` values, the shape of every closure the package ever
appends to them. -/
structure Promise where
  state : state
  value : GoVal
  success : List QEntry
  failure : List QEntry
deriving Repr

/-- The Go zero value of `Promise` (`var p Promise`): `state` is
`state(0) = pending`, `value` is the nil interface, both slices are nil. -/
def Promise.zero : Promise :=
  { state := .pending, value := .nil, success := [], failure := [] }

/-- Promises are heap-allocated and shared by pointer; the heap is a list
of promises, a promise id being its index. -/
abbrev Heap := List Promise

/-- Which side of a queue a dispatched batch came from, i.e. which of the
two closures of `wrap` the entries stand for. -/
inductive Side where
  | succ
  | fail
deriving Repr

/-- A goroutine spawned by `flush` via `go sendSoon(p.value, queue)`:
the settled value and the batch of wrapped callbacks to run on it. -/
structure GoTask where
  value : GoVal
  cbs : List QEntry
  side : Side
deriving Repr

/--
`(*Promise).commit(s, val, callbacks)` from the source:

    if p.state != pending {
      panic(fmt.Errorf("Cannot change p promise that isn't pending: %s", p.state))
    }
    p.value = val
    p.state = s

The `callbacks` argument is unused by the source as well.  Returns the heap
after execution and `some x` when the call panicked with `x`; the panic
fires before any field is written, so on panic the heap is unchanged. -/
def commit (h : Heap) (i : Nat) (s : state) (val : GoVal)
    (callbacks : List QEntry) : Heap × Option GoVal :=
  match h.get? i with
  | none => (h, some (.str "invalid promise pointer"))
  | some p =>
      if p.state ≠ .pending then
        (h, some (.err ("Cannot change p promise that isn't pending: " ++ p.state.String)))
      else
        (h.set i { p with value := val, state := s }, none)

/--
`(*Promise).flush()` from the source: nothing happens while pending;
otherwise the queue matching the settled state is handed to a spawned
`sendSoon` goroutine (returned here as a `Task`) and both queues are
cleared.  Never panics. -/
def flush (h : Heap) (i : Nat) : Heap × List GoTask :=
  match h.get? i with
  | none => (h, [])
  | some p =>
      if p.state = .pending then
        (h, [])
      else
        let ts :=
          if p.state = .fulfilled then
            [{ value := p.value, cbs := p.success, side := .succ }]
          else
            [{ value := p.value, cbs := p.failure, side := .fail }]
        (h.set i { p with success := [], failure := [] }, ts)

/-- `(*Promise).Resolve(value)`: `commit(fulfilled, value, p.success)` then
`flush()`; returns heap, spawned tasks, and the panic value if any
(in which case `flush` is never reached). -/
def Resolve (h : Heap) (i : Nat) (value : GoVal) :
    Heap × List GoTask × Option GoVal :=
  let cbs := (h.get? i).elim [] Promise.success
  match commit h i .fulfilled value cbs with
  | (h₁, some x) => (h₁, [], some x)
  | (h₁, none) =>
      let (h₂, ts) := flush h₁ i
      (h₂, ts, none)

/-- `(*Promise).Reject(err)`: `commit(rejected, err, p.failure)` then
`flush()`. -/
def Reject (h : Heap) (i : Nat) (err : GoVal) :
    Heap × List GoTask × Option GoVal :=
  let cbs := (h.get? i).elim [] Promise.failure
  match commit h i .rejected err cbs with
  | (h₁, some x) => (h₁, [], some x)
  | (h₁, none) =>
      let (h₂, ts) := flush h₁ i
      (h₂, ts, none)

/--
`(*Promise).Then(success, failure)` from the source: allocates a fresh
pending child, wraps the two user callbacks with the child's id (the
closures built by `wrap`), appends them to the parent's queues, flushes
the parent, and returns the child's id.  Never panics. -/
def Then (h : Heap) (i : Nat) (success failure : UserCb) :
    Heap × List GoTask × Nat :=
  let child := h.length
  let h₁ := h ++ [Promise.zero]
  let h₂ :=
    match h₁.get? i with
    | none => h₁
    | some p =>
        h₁.set i { p with
          success := p.success ++ [{ user := success, child := child }],
          failure := p.failure ++ [{ user := failure, child := child }] }
  let (h₃, ts) := flush h₂ i
  (h₃, ts, child)

/--
The first closure returned by `(*Promise).wrap(success, failure)`, run on a
settled value `v` for queue entry `e` (child id `e.child`, user callback
`e.user`):

    func(val interface{}) interface{} {
      defer func() {
        if x := recover(); x != nil {
          p.Reject(x)
        }
      }()
      return p.Resolve(safe(success)(val))
    }

If the user callback returns normally, the child is resolved with its
return value; a panic from the body (the user callback, or `Resolve` on an
already-settled child) is recovered and the child is rejected with the
panic value; a panic from that `Reject` itself propagates. -/
def runWrapSuccess (h : Heap) (e : QEntry) (v : GoVal) :
    Trace × Heap × List GoTask × Option GoVal :=
  let (tr, r) := runUser (safe e.user) v
  match r with
  | .ok ret =>
      match Resolve h e.child ret with
      | (h₁, ts, none) => (tr, h₁, ts, none)
      | (h₁, ts, some x) =>
          let (h₂, ts₂, px) := Reject h₁ e.child x
          (tr, h₂, ts ++ ts₂, px)
  | .error x =>
      let (h₁, ts, px) := Reject h e.child x
      (tr, h₁, ts, px)

/--
The second closure returned by `(*Promise).wrap(success, failure)`:

    func(val interface{}) interface{} { return p.Reject(safe(failure)(val)) }

No `recover` here: if the user failure callback returns normally the child
is rejected with its return value, but a panic from the callback (or from
`Reject` on an already-settled child) propagates to the caller. -/
def runWrapFailure (h : Heap) (e : QEntry) (v : GoVal) :
    Trace × Heap × List GoTask × Option GoVal :=
  let (tr, r) := runUser (safe e.user) v
  match r with
  | .ok ret =>
      let (h₁, ts, px) := Reject h e.child ret
      (tr, h₁, ts, px)
  | .error x => (tr, h, [], some x)

/-- Run one queue entry according to the side of the queue it sits in. -/
def runWrapped (h : Heap) (side : Side) (e : QEntry) (v : GoVal) :
    Trace × Heap × List GoTask × Option GoVal :=
  match side with
  | .succ => runWrapSuccess h e v
  | .fail => runWrapFailure h e v

/--
`sendSoon(val, callbacks)` from the source: runs each wrapped callback on
the settled value, in queue order.  (The source's `if cb != nil` guard is
vacuous: `wrap` never produces a nil callback.)  A panic escaping a
callback aborts the batch — the goroutine dies and the remaining entries
never run.  Returns the trace, the heap, the goroutines spawned by the
callbacks' `Resolve`/`Reject` calls, and the escaped panic if any. -/
def sendSoon (h : Heap) (v : GoVal) (side : Side) :
    List QEntry → Trace × Heap × List GoTask × Option GoVal
  | [] => ([], h, [], none)
  | e :: es =>
      let (tr, h₁, ts, px) := runWrapped h side e v
      match px with
      | some x => (tr, h₁, ts, some x)
      | none =>
          let (tr₂, h₂, ts₂, px₂) := sendSoon h₁ v side es
          (tr ++ tr₂, h₂, ts ++ ts₂, px₂)

/-- Outcome of running the spawned goroutines to completion. -/
inductive RunOutcome where
  | done
  | panicked (x : GoVal)
  | fuelOut
deriving Repr

/--
Deterministic FIFO scheduler for the goroutines spawned by `flush`: runs
the first task's `sendSoon` to completion, appends the goroutines it
spawned, and repeats.  For the linear chains considered here each queue
dispatch spawns at most one goroutine before finishing, so this is the
only schedule Go's runtime can produce up to cross-promise interleaving.
An unrecovered panic in a task kills the process (Go semantics for a panic
escaping a goroutine); `fuel` bounds the number of tasks processed. -/
def run : Nat → Heap → List GoTask → Trace × Heap × RunOutcome
  | _, h, [] => ([], h, .done)
  | 0, h, _ :: _ => ([], h, .fuelOut)
  | fuel + 1, h, t :: rest =>
      let (tr, h₁, ts, px) := sendSoon h t.value t.side t.cbs
      match px with
      | some x => (tr, h₁, .panicked x)
      | none =>
          let (tr₂, h₂, out) := run fuel h₁ (rest ++ ts)
          (tr ++ tr₂, h₂, out)

/-- A Go function value as the adapter sees it: its declared output types
(`f.Type()`, of which only the outputs matter to `Promisify`) and its
runtime behaviour — from arguments to either `.ok` with the returned
values, in declaration order, or `.error` with a panic value. -/
structure GoFunc where
  outTypes : List GoType
  impl : List GoVal → Except GoVal (List GoVal)

/--
`Promisify(fn)` applied to arguments, including the spawned goroutine run
to completion:

    var p Promise
    go func() {
      results := f.Call(reflectAll(args...))
      value, err := splitResults(results, hasLastError(f.Type()))
      if err == nil {
        p.Resolve(value)
      } else {
        p.Reject(err.Error())
      }
    }()

The fresh promise is allocated at `h.length`.  There is no
`defer`/`recover` in the goroutine body, so a panic from `f.Call` (the
callable itself panicking) propagates: the returned panic component is
`some x` and the promise is never settled.  Returns the heap, the
goroutines spawned by settling, the new promise's id, and the panic. -/
def Promisify (h : Heap) (f : GoFunc) (args : List GoVal) :
    Heap × List GoTask × Nat × Option GoVal :=
  let i := h.length
  let h₁ := h ++ [Promise.zero]
  match f.impl args with
  | .error x => (h₁, [], i, some x)
  | .ok results =>
      match splitResults results (hasLastError f.outTypes) with
      | (value, none) =>
          let (h₂, ts, px) := Resolve h₁ i value
          (h₂, ts, i, px)
      | (_, some e) =>
          let (h₂, ts, px) := Reject h₁ i e.errorString
          (h₂, ts, i, px)

/-! ## Scenarios

Concrete programs over the embedding, mirroring the spec's examples and
the package tests. -/

/-- The spec's chain-composition scenario: `var root Promise`, then
`root.Then(f1).Then(f2).Then(f3)` with `f_i = input + 1` labelled `i`,
then `root.Resolve(1)`, then all spawned goroutines run to completion. -/
def chainScenario : Trace × Heap × RunOutcome :=
  let h0 : Heap := [Promise.zero]
  let (h1, _, c1) := Then h0 0 (.addOne 1) .noCb
  let (h2, _, c2) := Then h1 c1 (.addOne 2) .noCb
  let (h3, _, _) := Then h2 c2 (.addOne 3) .noCb
  let (h4, ts, _) := Resolve h3 0 (.int 1)
  run 10 h4 ts

/-- A single `Then` link with both callbacks absent on a root that is then
fulfilled with `v`: the child is promise 1. -/
def nilLinkFulfill (v : GoVal) : Trace × Heap × RunOutcome :=
  let (h1, _, _) := Then [Promise.zero] 0 .noCb .noCb
  let (h2, ts, _) := Resolve h1 0 v
  run 10 h2 ts

/-- A single `Then` link with both callbacks absent on a root that is then
rejected with reason `r`: the child is promise 1. -/
def nilLinkReject (r : GoVal) : Trace × Heap × RunOutcome :=
  let (h1, _, _) := Then [Promise.zero] 0 .noCb .noCb
  let (h2, ts, _) := Reject h1 0 r
  run 10 h2 ts

/-- A single `Then` link whose failure callback panics with `x`, on a root
that is then rejected with reason `r`: the child is promise 1. -/
def failurePanicScenario (x r : GoVal) : Trace × Heap × RunOutcome :=
  let (h1, _, _) := Then [Promise.zero] 0 .noCb (.panics x)
  let (h2, ts, _) := Reject h1 0 r
  run 10 h2 ts

/-- A callable declared `func(...) (int, error)` whose invocation returns
`(42, errors.New "boom")`: a non-empty failure channel. -/
def errReturningFunc : GoFunc :=
  { outTypes := [.int, .error], impl := fun _ => .ok [.int 42, .err "boom"] }

/-- A callable with no declared outputs that panics with `"oops"` when
invoked. -/
def panickingFunc : GoFunc :=
  { outTypes := [], impl := fun _ => .error (.str "oops") }

/-! ## Theorems -/

/-- C5: Given a root promise resolved with value 1 and the chain
`root.then(f1).then(f2).then(f3)` where each `f_i` returns its input plus
one, the three success handlers observe the values 1, 2, 3 respectively,
in that order, and dispatch completes without panic or leftover work. -/
theorem chain_handlers_observe_in_order :
    chainScenario.1 = [(1, .int 1), (2, .int 2), (3, .int 3)] ∧
    chainScenario.2.2 = RunOutcome.done := by
  constructor <;> rfl

/-- C6: a `then` link whose callbacks are both absent is identity
passthrough: a fulfillment value reaches the child unchanged (child
fulfilled with the same value) and a rejection reason reaches the child
unchanged (child rejected with the same reason), for every value. -/
theorem absent_callback_passthrough (v r : GoVal) :
    (nilLinkFulfill v).2.1.get? 1 =
      some { state := .fulfilled, value := v, success := [], failure := [] } ∧
    (nilLinkFulfill v).2.2 = RunOutcome.done ∧
    (nilLinkReject r).2.1.get? 1 =
      some { state := .rejected, value := r, success := [], failure := [] } ∧
    (nilLinkReject r).2.2 = RunOutcome.done := by
  refine ⟨rfl, rfl, rfl, rfl⟩

/-- C2 (the code contradicts the package's own documentation): invoking a
Promisified callable that panics does not reject the promise — the
goroutine body of `Promisify` installs no `recover`, so the panic escapes
the spawned execution context and the promise is left pending forever.
The package doc states "If the function panics, the promise is rejected
with the panic value". -/
theorem promisify_panic_escapes_goroutine :
    Promisify [] panickingFunc [] = ([Promise.zero], [], 0, some (.str "oops")) ∧
    ([Promise.zero] : Heap).get? 0 =
      some { state := .pending, value := .nil, success := [], failure := [] } := by
  exact ⟨rfl, rfl⟩

/-- C1 counterexample: wrapping a callable declared `(int, error)` that
returns `(42, errors.New "boom")` rejects the promise with the error's
message string `"boom"` (`err.Error()`), which is not the failure value
`errors.New "boom"` itself. -/
theorem promisify_failure_reason_is_message_not_value :
    (Promisify [] errReturningFunc []).1.get? 0 =
      some { state := .rejected, value := .str "boom", success := [], failure := [] } ∧
    GoVal.str "boom" ≠ GoVal.err "boom" := by
  exact ⟨rfl, fun h => nomatch h⟩

/-- C3 counterexample: a failure callback that panics with `"boom"` during
dispatch is not recovered — the second closure built by `wrap` has no
`defer`/`recover` — so the panic escapes to the dispatching goroutine and
the child promise (promise 1) is left pending rather than rejected with
the thrown value. -/
theorem failure_callback_panic_not_recovered :
    (failurePanicScenario (.str "boom") (.int 1)).2.2 =
      RunOutcome.panicked (.str "boom") ∧
    (failurePanicScenario (.str "boom") (.int 1)).2.1.get? 1 =
      some { state := .pending, value := .nil, success := [], failure := [] } := by
  exact ⟨rfl, rfl⟩

/-! ## Helper lemmas on heap operations -/

theorem get?_length_lt {h : Heap} {i : Nat} {p : Promise} (hp : h.get? i = some p) :
    i < h.length :=
  (List.get?_eq_some.mp hp).choose

theorem get?_set_same {h : Heap} {i : Nat} (q : Promise) (hlt : i < h.length) :
    (h.set i q).get? i = some q := by
  simp [List.get?_eq_getElem?, List.getElem?_set_eq_of_lt q hlt]

/-- `Resolve` on a pending promise: no panic, the slot becomes fulfilled
with the given value and cleared queues, and one goroutine is spawned to
dispatch the old success queue against the value. -/
theorem Resolve_pending {h : Heap} {i : Nat} {p : Promise} (v : GoVal)
    (hp : h.get? i = some p) (hpend : p.state = .pending) :
    Resolve h i v =
      (h.set i { state := .fulfilled, value := v, success := [], failure := [] },
       [{ value := v, cbs := p.success, side := .succ }], none) := by
  have hlt : i < h.length := get?_length_lt hp
  unfold Resolve commit flush
  rw [hp]
  simp [hpend, hlt, get?_set_same, List.set_set]

/-- `Reject` on a pending promise: no panic, the slot becomes rejected
with the given reason and cleared queues, and one goroutine is spawned to
dispatch the old failure queue against the reason. -/
theorem Reject_pending {h : Heap} {i : Nat} {p : Promise} (r : GoVal)
    (hp : h.get? i = some p) (hpend : p.state = .pending) :
    Reject h i r =
      (h.set i { state := .rejected, value := r, success := [], failure := [] },
       [{ value := r, cbs := p.failure, side := .fail }], none) := by
  have hlt : i < h.length := get?_length_lt hp
  unfold Reject commit flush
  rw [hp]
  simp [hpend, hlt, get?_set_same, List.set_set]

/-- `Resolve` on a settled promise: the `commit` check panics before any
mutation, so the heap is returned unchanged and no goroutine is spawned. -/
theorem Resolve_settled {h : Heap} {i : Nat} {p : Promise} (v : GoVal)
    (hp : h.get? i = some p) (hs : p.state ≠ .pending) :
    Resolve h i v =
      (h, [], some (.err ("Cannot change p promise that isn't pending: " ++ p.state.String))) := by
  unfold Resolve commit
  rw [hp]
  simp [hs]

/-- `Reject` on a settled promise: the `commit` check panics before any
mutation, so the heap is returned unchanged and no goroutine is spawned. -/
theorem Reject_settled {h : Heap} {i : Nat} {p : Promise} (r : GoVal)
    (hp : h.get? i = some p) (hs : p.state ≠ .pending) :
    Reject h i r =
      (h, [], some (.err ("Cannot change p promise that isn't pending: " ++ p.state.String))) := by
  unfold Reject commit
  rw [hp]
  simp [hs]

/-- C4: starting from a pending promise, the first `Resolve` (or `Reject`)
succeeds and settles the slot; after either settlement, every further
`Resolve` or `Reject` on that promise panics (returns a panic value) and
leaves the heap — hence the promise's state and value — unchanged.  Thus
at most one call to `Resolve` or `Reject` ever succeeds on a promise. -/
theorem settle_at_most_once (h : Heap) (i : Nat) (p : Promise) (v w r : GoVal)
    (hp : h.get? i = some p) (hpend : p.state = .pending) :
    (Resolve h i v).2.2 = none ∧
    (Resolve h i v).1.get? i =
      some { state := .fulfilled, value := v, success := [], failure := [] } ∧
    (Resolve (Resolve h i v).1 i w).1 = (Resolve h i v).1 ∧
    (Resolve (Resolve h i v).1 i w).2.2 ≠ none ∧
    (Reject (Resolve h i v).1 i r).1 = (Resolve h i v).1 ∧
    (Reject (Resolve h i v).1 i r).2.2 ≠ none ∧
    (Reject h i r).2.2 = none ∧
    (Reject h i r).1.get? i =
      some { state := .rejected, value := r, success := [], failure := [] } ∧
    (Resolve (Reject h i r).1 i w).1 = (Reject h i r).1 ∧
    (Resolve (Reject h i r).1 i w).2.2 ≠ none ∧
    (Reject (Reject h i r).1 i w).1 = (Reject h i r).1 ∧
    (Reject (Reject h i r).1 i w).2.2 ≠ none := by
  have hlt : i < h.length := get?_length_lt hp
  have hres := Resolve_pending v hp hpend
  have hrej := Reject_pending r hp hpend
  have hqf : (Resolve h i v).1.get? i =
      some { state := .fulfilled, value := v, success := [], failure := [] } := by
    rw [hres]; exact get?_set_same _ hlt
  have hqr : (Reject h i r).1.get? i =
      some { state := .rejected, value := r, success := [], failure := [] } := by
    rw [hrej]; exact get?_set_same _ hlt
  refine ⟨by rw [hres], hqf, ?_, ?_, ?_, ?_, by rw [hrej], hqr, ?_, ?_, ?_, ?_⟩
  · rw [Resolve_settled w hqf (by simp)]
  · rw [Resolve_settled w hqf (by simp)]; simp
  · rw [Reject_settled r hqf (by simp)]
  · rw [Reject_settled r hqf (by simp)]; simp
  · rw [Resolve_settled w hqr (by simp)]
  · rw [Resolve_settled w hqr (by simp)]; simp
  · rw [Reject_settled w hqr (by simp)]
  · rw [Reject_settled w hqr (by simp)]; simp

/-- Witness for C4 at a concrete input: the zero promise in a one-slot
heap, resolved with 1, then settled again with 2 and 3. -/
theorem settle_at_most_once_witness :
    (([Promise.zero] : Heap).get? 0 = some Promise.zero) ∧
    (Promise.zero.state = .pending) ∧
    (Resolve [Promise.zero] 0 (.int 1)).2.2 = none ∧
    (Resolve (Resolve [Promise.zero] 0 (.int 1)).1 0 (.int 2)).2.2 ≠ none ∧
    (Reject (Resolve [Promise.zero] 0 (.int 1)).1 0 (.int 3)).2.2 ≠ none :=
  ⟨rfl, rfl,
    (settle_at_most_once [Promise.zero] 0 Promise.zero (.int 1) (.int 2) (.int 3) rfl rfl).1,
    (settle_at_most_once [Promise.zero] 0 Promise.zero (.int 1) (.int 2) (.int 3) rfl rfl).2.2.2.1,
    (settle_at_most_once [Promise.zero] 0 Promise.zero (.int 1) (.int 2) (.int 3) rfl rfl).2.2.2.2.2.1⟩

/-- C3 (amended): a success callback that panics during dispatch is
recovered by the `defer`/`recover` in the first closure of `wrap`, and the
child promise is rejected with the thrown value (no panic escapes); a
failure callback that panics is not recovered — the second closure of
`wrap` installs no recovery — so its panic escapes to the dispatching
execution context and the child is left untouched. -/
theorem success_callback_panic_rejects_child (h : Heap) (e : QEntry) (x v : GoVal)
    (c : Promise) (hu : e.user = .panics x) (hc : h.get? e.child = some c)
    (hpend : c.state = .pending) :
    runWrapSuccess h e v =
      ([], h.set e.child { state := .rejected, value := x, success := [], failure := [] },
       [{ value := x, cbs := c.failure, side := .fail }], none) ∧
    (runWrapSuccess h e v).2.1.get? e.child =
      some { state := .rejected, value := x, success := [], failure := [] } ∧
    runWrapFailure h e v = ([], h, [], some x) := by
  have hlt : e.child < h.length := get?_length_lt hc
  have hrej := Reject_pending x hc hpend
  have h1 : runWrapSuccess h e v =
      ([], h.set e.child { state := .rejected, value := x, success := [], failure := [] },
       [{ value := x, cbs := c.failure, side := .fail }], none) := by
    unfold runWrapSuccess
    rw [hu]
    simp [safe, runUser, hrej]
  refine ⟨h1, ?_, ?_⟩
  · rw [h1]; exact get?_set_same _ hlt
  · unfold runWrapFailure
    rw [hu]
    simp [safe, runUser]

/-- Witness for C3 (amended) at a concrete input: a two-slot heap whose
entry targets child 1 and panics with `"pow"` when dispatched with 0. -/
theorem success_callback_panic_rejects_child_witness :
    (({ user := .panics (.str "pow"), child := 1 } : QEntry).user = .panics (.str "pow")) ∧
    (([Promise.zero, Promise.zero] : Heap).get? 1 = some Promise.zero) ∧
    (Promise.zero.state = .pending) ∧
    (runWrapSuccess [Promise.zero, Promise.zero] { user := .panics (.str "pow"), child := 1 }
        (.int 0)).2.1.get? 1 =
      some { state := .rejected, value := .str "pow", success := [], failure := [] } ∧
    runWrapFailure [Promise.zero, Promise.zero] { user := .panics (.str "pow"), child := 1 }
        (.int 0) = ([], [Promise.zero, Promise.zero], [], some (.str "pow")) :=
  ⟨rfl, rfl, rfl,
    (success_callback_panic_rejects_child [Promise.zero, Promise.zero]
      { user := .panics (.str "pow"), child := 1 } (.str "pow") (.int 0)
      Promise.zero rfl rfl rfl).2.1,
    (success_callback_panic_rejects_child [Promise.zero, Promise.zero]
      { user := .panics (.str "pow"), child := 1 } (.str "pow") (.int 0)
      Promise.zero rfl rfl rfl).2.2⟩

theorem get?_snoc_length (h : Heap) (p : Promise) : (h ++ [p]).get? h.length = some p := by
  simp [List.get?_eq_getElem?]

/-- C1 (amended): for every wrapped callable whose declared last output is
the error type, if an invocation returns a non-nil error on that channel,
the Adapter's promise is rejected with the error's message (`err.Error()`,
a string) as reason, and the remaining outputs are discarded (the reason
does not depend on them). -/
theorem promisify_nonNil_error_rejects_with_message (h : Heap) (f : GoFunc)
    (args rest : List GoVal) (m : String)
    (himpl : f.impl args = .ok (rest ++ [.err m]))
    (hsig : hasLastError f.outTypes = true) :
    (Promisify h f args).2.2.2 = none ∧
    (Promisify h f args).2.2.1 = h.length ∧
    (Promisify h f args).1.get? h.length =
      some { state := .rejected, value := .str m, success := [], failure := [] } := by
  have hfresh : (h ++ [Promise.zero]).get? h.length = some Promise.zero :=
    get?_snoc_length h Promise.zero
  have hlt : h.length < (h ++ [Promise.zero]).length := get?_length_lt hfresh
  have hrej := Reject_pending (GoVal.str m) hfresh rfl
  have hsplit : splitResults (rest ++ [.err m]) true = (desliceOne rest, some (.err m)) := by
    unfold splitResults
    rw [List.getLast?_concat]
    simp [GoVal.isNil]
  refine ⟨?_, ?_, ?_⟩ <;>
    simp only [Promisify, himpl, hsig, hsplit, GoVal.errorString, hrej] <;>
    simp [get?_set_same _ hlt]

/-- Witness for C1 (amended): the concrete callable declared `(int, error)`
returning `(42, errors.New "boom")`. -/
theorem promisify_nonNil_error_rejects_with_message_witness :
    (errReturningFunc.impl [] = .ok ([.int 42] ++ [.err "boom"])) ∧
    (hasLastError errReturningFunc.outTypes = true) ∧
    (Promisify [] errReturningFunc []).1.get? 0 =
      some { state := .rejected, value := .str "boom", success := [], failure := [] } :=
  ⟨rfl, rfl,
    (promisify_nonNil_error_rejects_with_message [] errReturningFunc [] [.int 42] "boom"
      rfl rfl).2.2⟩

/-- The failure-channel stripping performed inline by `splitResults`
(`results = results[:N-1]` exactly when `lastError && N > 0`), as a
standalone function for stating C7. -/
def stripOutputs (results : List GoVal) (lastError : Bool) : List GoVal :=
  match lastError, results with
  | true, _ :: _ => results.dropLast
  | _, _ => results

theorem splitResults_fst (results : List GoVal) (le : Bool) :
    (splitResults results le).1 = desliceOne (stripOutputs results le) := by
  cases le with
  | false => rfl
  | true =>
      cases results with
      | nil => rfl
      | cons r rs =>
          cases hg : (r :: rs).getLast? with
          | none => exact absurd hg (by simp [List.getLast?_eq_none_iff])
          | some g => simp [splitResults, stripOutputs, hg]

/-- A callable declared with two plain outputs and no failure channel,
returning `(1, "a")` on every invocation. -/
def twoValFunc : GoFunc :=
  { outTypes := [.int, .string], impl := fun _ => .ok [.int 1, .str "a"] }

/-- C7: when the invocation of a wrapped callable does not fail (the
failure channel, if declared, carries nil), the Adapter fulfills the
promise with the fold of the failure-channel-stripped outputs: zero
outputs yield nil, exactly one yields that value unwrapped, two or more
yield the ordered sequence of the values in declaration order. -/
theorem promisify_success_folds_outputs (h : Heap) (f : GoFunc)
    (args results : List GoVal) (himpl : f.impl args = .ok results)
    (hnof : (splitResults results (hasLastError f.outTypes)).2 = none) :
    (Promisify h f args).2.2.2 = none ∧
    (Promisify h f args).2.2.1 = h.length ∧
    (Promisify h f args).1.get? h.length =
      some { state := .fulfilled,
             value := desliceOne (stripOutputs results (hasLastError f.outTypes)),
             success := [], failure := [] } ∧
    desliceOne [] = GoVal.nil ∧
    (∀ v : GoVal, desliceOne [v] = v) ∧
    (∀ (v w : GoVal) (vs : List GoVal), desliceOne (v :: w :: vs) = .list (v :: w :: vs)) := by
  have hfresh : (h ++ [Promise.zero]).get? h.length = some Promise.zero :=
    get?_snoc_length h Promise.zero
  have hlt : h.length < (h ++ [Promise.zero]).length := get?_length_lt hfresh
  rcases hsp : splitResults results (hasLastError f.outTypes) with ⟨val, err⟩
  rw [hsp] at hnof
  simp only at hnof
  subst hnof
  have hval : val = desliceOne (stripOutputs results (hasLastError f.outTypes)) := by
    rw [← splitResults_fst, hsp]
  have hres := Resolve_pending val hfresh rfl
  refine ⟨?_, ?_, ?_, rfl, fun v => rfl, fun v w vs => rfl⟩ <;>
    simp only [Promisify, himpl, hsp, hres] <;>
    simp [get?_set_same _ hlt, hval]

/-- Witness for C7 at concrete inputs: `twoValFunc`, wrapped and invoked
on the empty heap. -/
theorem promisify_success_folds_outputs_witness :
    (twoValFunc.impl [] = .ok [.int 1, .str "a"]) ∧
    ((splitResults [.int 1, .str "a"] (hasLastError twoValFunc.outTypes)).2 = none) ∧
    (Promisify [] twoValFunc []).1.get? 0 =
      some { state := .fulfilled,
             value := desliceOne (stripOutputs [.int 1, .str "a"]
               (hasLastError twoValFunc.outTypes)),
             success := [], failure := [] } :=
  ⟨rfl, rfl,
    (promisify_success_folds_outputs [] twoValFunc [] [.int 1, .str "a"] rfl rfl).2.2.1⟩

/-- C9: whether the Adapter treats the last declared output as a failure
channel is purely structural: false for a callable declaring zero outputs,
decided by the last declared output type being the error interface type
otherwise, and independent of the callable's runtime behaviour (two
callables with the same signature get the same answer whatever their
implementations return). -/
theorem hasLastError_structural :
    hasLastError [] = false ∧
    (∀ (outs : List GoType) (t : GoType), hasLastError (outs ++ [t]) = (t == GoType.error)) ∧
    (∀ (sig : List GoType) (i₁ i₂ : List GoVal → Except GoVal (List GoVal)),
      hasLastError (GoFunc.mk sig i₁).outTypes = hasLastError (GoFunc.mk sig i₂).outTypes) := by
  refine ⟨rfl, ?_, fun sig i₁ i₂ => rfl⟩
  intro outs t
  simp [hasLastError, List.getLast?_concat]

/-! ## The settled-queues-empty invariant (C8) -/

/-- A promise that is not pending has both callback queues empty. -/
def cleanAt (p : Promise) : Prop :=
  p.state ≠ .pending → p.success = [] ∧ p.failure = []

/-- Every settled promise in the heap has empty callback queues. -/
def settledClean (h : Heap) : Prop :=
  ∀ p ∈ h, cleanAt p

theorem settledClean_set_clean {h : Heap} (hc : settledClean h) {q : Promise}
    (hq : cleanAt q) (i : Nat) : settledClean (h.set i q) := by
  intro p hm
  rcases List.mem_or_eq_of_mem_set hm with hm | rfl
  · exact hc p hm
  · exact hq

theorem settledClean_snoc_zero {h : Heap} (hc : settledClean h) :
    settledClean (h ++ [Promise.zero]) := by
  intro p hm
  rcases List.mem_append.mp hm with hm | hm
  · exact hc p hm
  · simp only [List.mem_singleton] at hm
    subst hm
    exact fun hs => absurd rfl hs

/-- `flush` restores the invariant even when the promise at `i` has dirty
queues: while pending its queues are allowed to be non-empty, and on any
settled state `flush` clears both queues. -/
theorem settledClean_flush {h : Heap} {i : Nat}
    (hc : ∀ j p, j ≠ i → h.get? j = some p → cleanAt p) :
    settledClean (flush h i).1 := by
  cases hp : h.get? i with
  | none =>
      simp only [flush, hp]
      intro p hm
      obtain ⟨j, hj⟩ := List.mem_iff_get?.mp hm
      by_cases hji : j = i
      · rw [hji, hp] at hj; cases hj
      · exact hc j p hji hj
  | some p₀ =>
      have hlt : i < h.length := get?_length_lt hp
      by_cases hps : p₀.state = .pending
      · simp only [flush, hp, hps, if_pos, if_true]
        intro p hm
        obtain ⟨j, hj⟩ := List.mem_iff_get?.mp hm
        by_cases hji : j = i
        · rw [hji, hp] at hj
          cases hj
          exact fun hs => absurd hps hs
        · exact hc j p hji hj
      · simp only [flush, hp, hps, if_false, if_neg]
        intro p hm
        obtain ⟨j, hj⟩ := List.mem_iff_get?.mp hm
        by_cases hji : j = i
        · subst hji
          rw [get?_set_same _ hlt] at hj
          cases hj
          exact fun _ => ⟨rfl, rfl⟩
        · rw [List.get?_eq_getElem?, List.getElem?_set_ne (fun e => hji e.symm),
            ← List.get?_eq_getElem?] at hj
          exact hc j p hji hj

theorem settledClean_except_of_set {h : Heap} (hc : settledClean h) (i : Nat) (q : Promise) :
    ∀ j p, j ≠ i → (h.set i q).get? j = some p → cleanAt p := by
  intro j p hji hj
  rw [List.get?_eq_getElem?, List.getElem?_set_ne (fun e => hji e.symm),
    ← List.get?_eq_getElem?] at hj
  exact hc p (List.get?_mem hj)

theorem Resolve_dangling {h : Heap} {i : Nat} (v : GoVal) (hp : h.get? i = none) :
    Resolve h i v = (h, [], some (.str "invalid promise pointer")) := by
  unfold Resolve commit
  rw [hp]

theorem Reject_dangling {h : Heap} {i : Nat} (r : GoVal) (hp : h.get? i = none) :
    Reject h i r = (h, [], some (.str "invalid promise pointer")) := by
  unfold Reject commit
  rw [hp]

/-- C8: the callback queues are populated by `Then` only while the promise
is pending and are cleared the first time it leaves pending, so the
invariant "every settled promise has empty queues" is preserved by each of
`Then`, `Resolve` and `Reject` — after any of them completes, a promise
observed as non-pending has both queues empty. -/
theorem settled_promise_queues_empty (h : Heap) (i : Nat) (s f : UserCb) (v r : GoVal)
    (hc : settledClean h) :
    settledClean (Then h i s f).1 ∧ settledClean (Resolve h i v).1 ∧
    settledClean (Reject h i r).1 := by
  have hc₁ : settledClean (h ++ [Promise.zero]) := settledClean_snoc_zero hc
  refine ⟨?_, ?_, ?_⟩
  · simp only [Then]
    cases hp : (h ++ [Promise.zero]).get? i with
    | none => exact settledClean_flush (fun j p _ hj => hc₁ p (List.get?_mem hj))
    | some p => exact settledClean_flush (settledClean_except_of_set hc₁ i _)
  · cases hp : h.get? i with
    | none => rw [Resolve_dangling v hp]; exact hc
    | some p =>
        by_cases hps : p.state = .pending
        · rw [Resolve_pending v hp hps]
          exact settledClean_set_clean hc (fun _ => ⟨rfl, rfl⟩) i
        · rw [Resolve_settled v hp hps]; exact hc
  · cases hp : h.get? i with
    | none => rw [Reject_dangling r hp]; exact hc
    | some p =>
        by_cases hps : p.state = .pending
        · rw [Reject_pending r hp hps]
          exact settledClean_set_clean hc (fun _ => ⟨rfl, rfl⟩) i
        · rw [Reject_settled r hp hps]; exact hc

/-- Witness for C8 at a concrete input: a heap holding one settled clean
promise and one pending promise with a queued callback. -/
theorem settled_promise_queues_empty_witness :
    settledClean [{ state := .fulfilled, value := .int 1, success := [], failure := [] },
      { state := .pending, value := .nil,
        success := [{ user := .noCb, child := 0 }], failure := [] }] ∧
    settledClean (Then [{ state := .fulfilled, value := .int 1, success := [], failure := [] },
      { state := .pending, value := .nil,
        success := [{ user := .noCb, child := 0 }], failure := [] }] 0 .noCb .noCb).1 ∧
    settledClean (Resolve [{ state := .fulfilled, value := .int 1, success := [], failure := [] },
      { state := .pending, value := .nil,
        success := [{ user := .noCb, child := 0 }], failure := [] }] 1 (.int 2)).1 := by
  have hc : settledClean [{ state := .fulfilled, value := .int 1, success := [], failure := [] },
      { state := .pending, value := .nil,
        success := [{ user := .noCb, child := 0 }], failure := [] }] := by
    intro p hm
    rcases List.mem_pair.mp hm with rfl | rfl
    · exact fun _ => ⟨rfl, rfl⟩
    · exact fun hs => absurd rfl hs
  exact ⟨hc,
    (settled_promise_queues_empty _ 0 .noCb .noCb (.int 2) (.int 3) hc).1,
    (settled_promise_queues_empty _ 1 .noCb .noCb (.int 2) (.int 3) hc).2.1⟩

/-- C10: the zero value `var p Promise` is a valid pending promise — state
`pending` (the zero `state`), nil value, empty queues — and `Resolve`,
`Reject` and `Then` act on a heap slot holding it exactly as the pending
case of the state machine prescribes: the first settlement succeeds with
the given value, and `Then` queues the wrapped pair, dispatches nothing,
and returns a fresh pending child. -/
theorem zero_value_promise_valid_pending (h : Heap) (i : Nat) (v r : GoVal)
    (s f : UserCb) (hp : h.get? i = some Promise.zero) :
    Promise.zero.state = .pending ∧
    Promise.zero.value = .nil ∧
    Promise.zero.success = [] ∧
    Promise.zero.failure = [] ∧
    (Resolve h i v).2.2 = none ∧
    (Resolve h i v).1.get? i =
      some { state := .fulfilled, value := v, success := [], failure := [] } ∧
    (Reject h i r).2.2 = none ∧
    (Reject h i r).1.get? i =
      some { state := .rejected, value := r, success := [], failure := [] } ∧
    (Then h i s f).2.1 = [] ∧
    (Then h i s f).2.2 = h.length ∧
    (Then h i s f).1.get? (Then h i s f).2.2 = some Promise.zero ∧
    (Then h i s f).1.get? i =
      some { state := .pending, value := .nil,
             success := [{ user := s, child := h.length }],
             failure := [{ user := f, child := h.length }] } := by
  have hlt : i < h.length := get?_length_lt hp
  have hne : i ≠ h.length := Nat.ne_of_lt hlt
  have hlt₁ : i < (h ++ [Promise.zero]).length := by
    simp only [List.length_append, List.length_singleton]
    exact Nat.lt_succ_of_lt hlt
  have hp₁ : (h ++ [Promise.zero]).get? i = some Promise.zero := by
    rw [List.get?_eq_getElem?, List.getElem?_append_left hlt, ← List.get?_eq_getElem?]
    exact hp
  have hres := Resolve_pending v hp rfl
  have hrej := Reject_pending r hp rfl
  have hThen : Then h i s f =
      ((h ++ [Promise.zero]).set i
        { state := .pending, value := .nil,
          success := [{ user := s, child := h.length }],
          failure := [{ user := f, child := h.length }] }, [], h.length) := by
    simp only [Then, hp₁]
    unfold flush
    rw [get?_set_same _ hlt₁]
    simp [Promise.zero]
  refine ⟨rfl, rfl, rfl, rfl, ?_, ?_, ?_, ?_, ?_, ?_, ?_, ?_⟩
  · rw [hres]
  · rw [hres]; exact get?_set_same _ hlt
  · rw [hrej]
  · rw [hrej]; exact get?_set_same _ hlt
  · rw [hThen]
  · rw [hThen]
  · rw [hThen]
    simp only
    rw [List.get?_eq_getElem?, List.getElem?_set_ne hne, ← List.get?_eq_getElem?]
    exact get?_snoc_length h Promise.zero
  · rw [hThen]
    exact get?_set_same _ hlt₁

/-- Witness for C10 at a concrete input: a one-slot heap holding the zero
promise. -/
theorem zero_value_promise_valid_pending_witness :
    (([Promise.zero] : Heap).get? 0 = some Promise.zero) ∧
    (Resolve [Promise.zero] 0 (.int 5)).1.get? 0 =
      some { state := .fulfilled, value := .int 5, success := [], failure := [] } ∧
    (Then [Promise.zero] 0 .noCb .noCb).1.get? 0 =
      some { state := .pending, value := .nil,
             success := [{ user := .noCb, child := 1 }],
             failure := [{ user := .noCb, child := 1 }] } :=
  ⟨rfl,
    (zero_value_promise_valid_pending [Promise.zero] 0 (.int 5) (.int 6)
      .noCb .noCb rfl).2.2.2.2.2.1,
    (zero_value_promise_valid_pending [Promise.zero] 0 (.int 5) (.int 6)
      .noCb .noCb rfl).2.2.2.2.2.2.2.2.2.2.2⟩
